import Mathlib

/-!
Verification development for the `InivationCamera` process of
`lava-peripherals` (`src/lava/lib/peripherals/dvs/inivation.py`).

The embedding translates the constructor `InivationCamera.__init__`
(argument validation, output-shape determination, construction-time dry
run) and the per-tick loop `PyInivationCameraModel.run_spk` (event
polling, normalization, in-place transformation, histogram binning,
frame emission). The collaborating classes `Compose`/`EventVolume`
(from `lava.lib.peripherals.dvs.transform`) and the binner
`histo_quantized` (from `metavision_ml`) are not part of the given
sources; they are modelled from the specification, as marked on each
such definition.
-/

namespace Inivation

/-- A single DVS event in the internal normalized representation: the
structured numpy record `[("y", int), ("x", int), ("p", int), ("t", int)]`
built in `run_spk` (inivation.py lines 179-183) and in the dry run
(line 102). Coordinates and polarity are non-negative machine integers,
timestamps are microsecond integers. -/
structure Event where
  y : Nat
  x : Nat
  p : Nat
  t : Int
deriving DecidableEq, Repr

abbrev EventBatch := List Event

/-- A raw event record as returned by the camera collaborator
(`dv.io.CameraCapture.getNextEventBatch().numpy()`, run_spk lines
175-183): fields `timestamp`, `polarity`, `x`, `y`. -/
structure RawEvent where
  timestamp : Int
  polarity : Nat
  x : Nat
  y : Nat
deriving DecidableEq, Repr

/-- Modelled from the spec: `EventVolume` of
`lava.lib.peripherals.dvs.transform` (imported at line 32, not under
src/): a plain shape descriptor with the three fields the source reads
(`height`, `width`, `polarities`). -/
structure EventVolume where
  height : Nat
  width : Nat
  polarities : Nat
deriving DecidableEq, Repr

/-- Modelled from the spec: a single transformation of the Compose
pipeline of `lava.lib.peripherals.dvs.transform` (not under src/). The
spec gives each transformation the capability set
`apply : EventBatch -> EventBatch` and
`infer_output_shape : EventVolume -> EventVolume`. Because the Python
callers pass a fixed-size numpy structured array and may discard the
returned object, one call on an array is modelled by two observables:
`mutate b` is the state of the argument array after the call (in-place
field writes cannot resize a numpy array, hence `mutate_length`), and
the returned object is the mutated argument itself when `returnsArg` is
true, or an independently computed fresh batch `ret b` otherwise.
`raises b` models the call raising an exception on batch `b`. -/
structure Transformation where
  mutate : EventBatch → EventBatch
  ret : EventBatch → EventBatch
  returnsArg : Bool
  raises : EventBatch → Bool
  infer_output_shape : EventVolume → EventVolume
  mutate_length : ∀ b, (mutate b).length = b.length

/-- Modelled from the spec: `Compose` — an ordered sequence of
transformations; order is fixed at construction. -/
structure Compose where
  transforms : List Transformation

/-- Modelled from the spec: `Compose.determine_output_shape` (called at
inivation.py line 92) is the left-fold of each transform's
`infer_output_shape` over the input shape, in pipeline order. -/
def Compose.determine_output_shape (c : Compose) (v : EventVolume) : EventVolume :=
  c.transforms.foldl (fun s t => t.infer_output_shape s) v

/-- Calling a Compose pipeline on a caller-owned array, tracking Python
object aliasing: `aliased` records whether the object currently threaded
through the chain is the caller's own array. Returns the pair
`(state of the caller's array after the call, value returned by the
call)`, or an error when some transform raises. -/
def composeRunE : List Transformation → Bool → EventBatch → EventBatch →
    Except Unit (EventBatch × EventBatch)
  | [], _, caller, cur => .ok (caller, cur)
  | t :: ts, aliased, caller, cur =>
    if t.raises cur then .error ()
    else
      composeRunE ts (aliased && t.returnsArg)
        (if aliased then t.mutate cur else caller)
        (if t.returnsArg then t.mutate cur else t.ret cur)

/-- The histogram volume, as a total count function over
`(time bin, polarity, y, x)` indices. -/
def Volume := Nat → Nat → Nat → Nat → Nat

def zeroVolume : Volume := fun _ _ _ _ => 0

/-- One saturating increment of the 8-bit counter at target cell
`(tb, tq, ty, tx)`: counts clamp at 255 instead of overflowing. -/
def bumpSat (v : Volume) (tb tq ty tx : Nat) : Volume := fun b q y x =>
  if b = tb ∧ q = tq ∧ y = ty ∧ x = tx then min 255 (v tb tq ty tx + 1)
  else v b q y x

/-- Modelled from the spec: the time-bin assignment of `histo_quantized`
(`metavision_ml`, imported at line 33, not under src/): the time span is
partitioned into `B` equal windows and an event is assigned by its
timestamp offset from the first timestamp, clamped into range. -/
def binIndex (B : Nat) (span t0 t : Int) : Nat :=
  if span ≤ 0 then 0 else min (B - 1) ((t - t0) * B / span).toNat

/-- Timestamp of the first event of a batch (`events['t'][0]`). -/
def firstT (l : EventBatch) : Int := ((l.head?).map Event.t).getD 0

/-- Timestamp of the last event of a batch (`events['t'][-1]`). -/
def lastT (l : EventBatch) : Int := ((l.getLast?).map Event.t).getD 0

/-- The accumulation loop of the binner: each event increments the
counter at `[bin, polarity, y, x]`, saturating at 255. -/
def histoFold (B : Nat) (span t0 : Int) (v : Volume) (evs : EventBatch) : Volume :=
  evs.foldl (fun v2 e => bumpSat v2 (binIndex B span t0 e.t) e.p e.y e.x) v

/-- Modelled from the spec: `histo_quantized` — convert a time-ordered
event batch into the dense volume; when `reset` is true the buffer is
zeroed before accumulation, otherwise counts accumulate on `vol`. -/
def histoApply (B : Nat) (events : EventBatch) (span : Int) (reset : Bool)
    (vol : Volume) : Volume :=
  histoFold B span (firstT events) (if reset then zeroVolume else vol) events

/-- The declared output shape tuple
`(num_output_time_bins, polarities, height, width)` (line 93-96),
unpacked again at line 136 of the process model. -/
structure OutShape where
  num_output_time_bins : Nat
  polarities : Nat
  height : Nat
  width : Nat
deriving DecidableEq, Repr

/-- Modelled from the spec: the binner writes `volume[bin, p, y, x]`;
the call succeeds exactly when every event of the batch falls inside the
declared buffer shape (a shape-incompatible batch makes the call raise,
which is what the construction-time dry run is designed to catch). -/
def histoOk (sh : OutShape) (events : EventBatch) : Bool :=
  (decide (0 < sh.num_output_time_bins) || events.isEmpty) &&
  events.all (fun e =>
    decide (e.p < sh.polarities) && decide (e.y < sh.height) &&
    decide (e.x < sh.width))

/-- The numpy element types occurring in the model: `np.uint8` (the
histogram buffer, line 152) and numpy's default `float64` (the
`np.zeros` fallback frame of line 206, which passes no dtype). -/
inductive NpDtype where
  | uint8
  | float64
deriving DecidableEq, Repr

def NpDtype.isUnsignedIntWidth8OrWider : NpDtype → Bool
  | .uint8 => true
  | .float64 => false

/-- A dense tensor handed to `s_out.send`. -/
structure Frame where
  shape : OutShape
  dtype : NpDtype
  data : Volume

/-- The mutable loop state of `PyInivationCameraModel`: the pause and
last-iteration wall-clock markers and the owned histogram buffer. -/
structure LoopState where
  t_pause : Int
  t_last_iteration : Int
  volume : Volume

/-- The per-process configuration read from `proc_params`
(lines 135-141). -/
structure CameraConfig where
  shape : OutShape
  device : String
  transformations : Option Compose

inductive RunError where
  | notImplementedPause
  | transformError
  | binnerError
deriving DecidableEq, Repr

/-- What one tick produced: either a frame sent on the output port
(together with the batch the binner consumed, `none` when the binner was
not invoked), or an uncaught exception. -/
inductive Outcome where
  | emitted (frame : Frame) (binned : Option EventBatch)
  | raised (e : RunError)

/-- Result of one `run_spk` tick: the outcome, the loop state after the
tick, and whether the camera collaborator was polled. -/
structure TickResult where
  outcome : Outcome
  state : LoopState
  cameraPolled : Bool

/-- Normalization of the polled batch into the internal representation
(run_spk lines 177-185): `None` or a batch, field extraction per
lines 180-183. -/
def normalizeEvents : Option (List RawEvent) → EventBatch
  | none => []
  | some rb => rb.map (fun e => ⟨e.y, e.x, e.polarity, e.timestamp⟩)

/-- Lines 198-199: `self.transformations(events)` is called only when a
pipeline is configured and the batch is non-empty; the returned value is
discarded, so only the in-place effect on the caller's array survives. -/
def applyTransformInPlace (transformations : Option Compose)
    (events : EventBatch) : Except RunError EventBatch :=
  match transformations with
  | none => .ok events
  | some c =>
    if events.length > 0 then
      match composeRunE c.transforms true events events with
      | .ok pr => .ok pr.1
      | .error _ => .error .transformError
    else .ok events

/-- One tick of `PyInivationCameraModel.run_spk` (lines 156-211): if a
pause happened since the last iteration, raise `NotImplementedError`
before polling; otherwise poll the camera, normalize, apply the
transformation pipeline in place, and either bin the non-empty batch
(`reset=True`, span = last minus first timestamp) into the owned volume
and emit it as a uint8 frame, or emit `np.zeros(self.s_out.shape)`
(numpy default dtype float64). `t_last_iteration` is set to `t_now` only
on a completed tick. -/
def run_spk (cfg : CameraConfig) (st : LoopState) (t_now : Int)
    (poll : Option (List RawEvent)) : TickResult :=
  if st.t_pause > st.t_last_iteration then
    ⟨.raised .notImplementedPause, st, false⟩
  else
    match applyTransformInPlace cfg.transformations (normalizeEvents poll) with
    | .error e => ⟨.raised e, st, true⟩
    | .ok events2 =>
      if events2.length > 0 then
        if histoOk cfg.shape events2 then
          let vol := histoApply cfg.shape.num_output_time_bins events2
            (lastT events2 - firstT events2) true st.volume
          ⟨.emitted ⟨cfg.shape, .uint8, vol⟩ (some events2),
            ⟨st.t_pause, t_now, vol⟩, true⟩
        else ⟨.raised .binnerError, st, true⟩
      else ⟨.emitted ⟨cfg.shape, .float64, zeroVolume⟩ none,
        ⟨st.t_pause, t_now, st.volume⟩, true⟩

abbrev Biases := List (String × Int)

inductive InitError where
  | valueError (msg : String)
  | exception (msg : String)
deriving DecidableEq, Repr

/-- The process object built by a successful `InivationCamera.__init__`:
the fields forwarded to `proc_params` (lines 116-124; note line 124
forwards the literal `1` as `num_output_time_bins`). -/
structure Camera where
  shape : OutShape
  device : String
  biases : Option Biases
  transformations : Option Compose
  num_output_time_bins : Int

/-- The unit-interval random draws consumed by the dry run's
`np.random.rand` calls (lines 103-106), one stream per field. -/
structure Draws where
  x : Nat → ℚ
  y : Nat → ℚ
  p : Nat → ℚ
  t : Nat → ℚ

/-- Every draw lies in the unit interval `[0, 1)`, as `np.random.rand`
guarantees (real-number idealization of the float draws). -/
def Draws.valid (d : Draws) : Prop :=
  ∀ i, (0 ≤ d.x i ∧ d.x i < 1) ∧ (0 ≤ d.y i ∧ d.y i < 1) ∧
    (0 ≤ d.p i ∧ d.p i < 1) ∧ (0 ≤ d.t i ∧ d.t i < 1)

/-- The synthetic dry-run batch of `InivationCamera.__init__`
(lines 100-106): 1000 events with `x = rand*width`, `y = rand*height`,
`p = rand*2` and `t = np.sort(rand*1e6)`, each float truncated by the
assignment into the integer record fields (all values are non-negative,
so truncation is the floor). -/
def synthesize (width height : Nat) (d : Draws) : EventBatch :=
  let ts := ((List.range 1000).map (fun i => d.t i * 1000000)).insertionSort (· ≤ ·)
  ts.enum.map (fun iq =>
    { y := (⌊d.y iq.1 * (height : ℚ)⌋).toNat
      x := (⌊d.x iq.1 * (width : ℚ)⌋).toNat
      p := (⌊d.p iq.1 * (2 : ℚ)⌋).toNat
      t := ⌊iq.2⌋ })

/-- The construction-time dry run (lines 98-114): run the Compose
pipeline over the synthetic batch for its in-place effect (line 109
discards the returned value); if the caller-side batch is non-empty
afterwards, run the histogram binner once over it into a zeroed buffer
of the declared shape. Returns the batch the binner consumed (`none`
when the binner was not invoked), or an error when any step raised. -/
def dryRun (c : Compose) (sh : OutShape) (test_data : EventBatch) :
    Except Unit (Option EventBatch) :=
  match composeRunE c.transforms true test_data test_data with
  | .error _ => .error ()
  | .ok pr =>
    if pr.1.length > 0 then
      if histoOk sh pr.1 then .ok (some pr.1) else .error ()
    else .ok none

/-- Output-shape determination of `InivationCamera.__init__`
(lines 84-96): an explicit `out_shape` wins; otherwise fold the
pipeline's shape inference over `EventVolume(height, width, 2)` and
prepend `num_output_time_bins`. -/
def declaredShape (height width : Nat) (transformations : Option Compose)
    (n : Nat) (out_shape : Option OutShape) : OutShape :=
  match out_shape with
  | some s => s
  | none =>
    let event_shape := EventVolume.mk height width 2
    let event_shape2 :=
      match transformations with
      | some c => c.determine_output_shape event_shape
      | none => event_shape
    ⟨n, event_shape2.polarities, event_shape2.height, event_shape2.width⟩

/-- `InivationCamera.__init__` (lines 56-124): the
`num_output_time_bins` guard (line 70 rejects exactly `n < 0` and
`n > 1`), the biases/file exclusivity guard (line 73), output-shape
determination, and the dry run when a pipeline is configured. `draws`
feeds the dry run's random synthesis and is consulted only then. -/
def init (sensor_shape : Nat × Nat) (device : String) (biases : Option Biases)
    (transformations : Option Compose) (num_output_time_bins : Int)
    (out_shape : Option OutShape) (draws : Draws) : Except InitError Camera :=
  if num_output_time_bins < 0 ∨ 1 < num_output_time_bins then
    .error (.valueError "Not Implemented: num_output_time_bins must be 1.")
  else if biases.isSome ∧ device ≠ "" then
    .error (.valueError "Cant set biases if reading from file.")
  else
    let sh := declaredShape sensor_shape.1 sensor_shape.2 transformations
      num_output_time_bins.toNat out_shape
    match transformations with
    | none => .ok ⟨sh, device, biases, transformations, 1⟩
    | some c =>
      match dryRun c sh (synthesize sensor_shape.2 sensor_shape.1 draws) with
      | .ok _ => .ok ⟨sh, device, biases, transformations, 1⟩
      | .error _ =>
        .error (.exception "Your transformation is not compatible with the provided data.")

/-- Events landing in cell `(b, q, y, x)` under bin assignment with the
given span and origin. -/
def cellCountAt (B : Nat) (span t0 : Int) (evs : EventBatch)
    (b q y x : Nat) : Nat :=
  (evs.filter (fun e => decide (binIndex B span t0 e.t = b) &&
    decide (e.p = q) && decide (e.y = y) && decide (e.x = x))).length

/-- Events assigned to time bin `b`. -/
def assignedAt (B : Nat) (span t0 : Int) (evs : EventBatch) (b : Nat) : Nat :=
  (evs.filter (fun e => decide (binIndex B span t0 e.t = b))).length

/-- Sum of all per-pixel, per-polarity counters of time bin `b`. -/
def binSum (sh : OutShape) (v : Volume) (b : Nat) : Nat :=
  ∑ q ∈ Finset.range sh.polarities, ∑ y ∈ Finset.range sh.height,
    ∑ x ∈ Finset.range sh.width, v b q y x

/-- A transformation whose call leaves its argument untouched and
returns a fresh object; used as a concrete pipeline element. -/
def idTransformation : Transformation :=
  { mutate := fun b => b
    ret := fun b => b
    returnsArg := true
    raises := fun _ => false
    infer_output_shape := fun v => v
    mutate_length := fun _ => rfl }

/-- A constant draw stream. -/
def zeroDraws : Draws := ⟨fun _ => 0, fun _ => 0, fun _ => 0, fun _ => 0⟩

/-- The constant draw stream 1/2, a valid unit-interval stream. -/
def halfDraws : Draws :=
  ⟨fun _ => 1/2, fun _ => 1/2, fun _ => 1/2, fun _ => 1/2⟩

theorem min255_step (c : Nat) : min 255 (min 255 c + 1) = min 255 (c + 1) := by
  omega

/-- Each cell of the accumulated histogram holds the saturated count of
the events that map to it. -/
theorem histoFold_cell (B : Nat) (span t0 : Int) (b q y x : Nat) :
    ∀ (evs : EventBatch) (v : Volume) (c : Nat), v b q y x = min 255 c →
      histoFold B span t0 v evs b q y x =
        min 255 (c + cellCountAt B span t0 evs b q y x) := by
  intro evs
  induction evs with
  | nil =>
    intro v c hv
    simpa [histoFold, cellCountAt] using hv
  | cons e es ih =>
    intro v c hv
    have hstep : histoFold B span t0 v (e :: es) =
        histoFold B span t0 (bumpSat v (binIndex B span t0 e.t) e.p e.y e.x) es := rfl
    by_cases hm : binIndex B span t0 e.t = b ∧ e.p = q ∧ e.y = y ∧ e.x = x
    · obtain ⟨h1, h2, h3, h4⟩ := hm
      have hbv : bumpSat v (binIndex B span t0 e.t) e.p e.y e.x b q y x =
          min 255 (c + 1) := by
        simp [bumpSat, h1, h2, h3, h4, hv, min255_step]
      rw [hstep, ih _ _ hbv]
      have hcnt : cellCountAt B span t0 (e :: es) b q y x =
          cellCountAt B span t0 es b q y x + 1 := by
        simp [cellCountAt, List.filter_cons, h1, h2, h3, h4]
      rw [hcnt]
      omega
    · have hbv : bumpSat v (binIndex B span t0 e.t) e.p e.y e.x b q y x =
          min 255 c := by
        simp only [bumpSat]
        rw [if_neg]
        · exact hv
        · intro hcon
          exact hm ⟨hcon.1.symm, hcon.2.1.symm, hcon.2.2.1.symm, hcon.2.2.2.symm⟩
      rw [hstep, ih _ _ hbv]
      have hcnt : cellCountAt B span t0 (e :: es) b q y x =
          cellCountAt B span t0 es b q y x := by
        simp only [cellCountAt, List.filter_cons]
        rw [if_neg]
        intro hcon
        simp only [Bool.and_eq_true, decide_eq_true_eq] at hcon
        exact hm ⟨hcon.1.1.1, hcon.1.1.2, hcon.1.2, hcon.2⟩
      rw [hcnt]

theorem sum_if_const (s : Finset ℕ) (A : Prop) [Decidable A] (f : ℕ → ℕ) :
    (∑ i ∈ s, if A then f i else 0) = if A then ∑ i ∈ s, f i else 0 := by
  by_cases hA : A <;> simp [hA]

theorem sum_range_ind (n k : Nat) (hk : k < n) :
    (∑ i ∈ Finset.range n, if k = i then 1 else 0) = 1 := by
  rw [Finset.sum_ite_eq]
  simp [Finset.mem_range.mpr hk]

/-- Summing the indicator of one in-range cell over all cells gives the
indicator of the remaining condition. -/
theorem sum_indicator_cell (P H W pe ye xe : Nat) (cPr : Prop) [Decidable cPr]
    (hp : pe < P) (hy : ye < H) (hx : xe < W) :
    (∑ q ∈ Finset.range P, ∑ y ∈ Finset.range H, ∑ x ∈ Finset.range W,
      if cPr ∧ pe = q ∧ ye = y ∧ xe = x then 1 else 0) =
      if cPr then 1 else 0 := by
  simp only [ite_and]
  have h1 : ∀ q y : Nat,
      (∑ x ∈ Finset.range W,
        if cPr then if pe = q then if ye = y then if xe = x then 1 else 0
          else 0 else 0 else 0) =
      (if cPr then if pe = q then if ye = y then 1 else 0 else 0 else 0) := by
    intro q y
    rw [sum_if_const, sum_if_const, sum_if_const, sum_range_ind W xe hx]
  have h2 : ∀ q : Nat,
      (∑ y ∈ Finset.range H,
        if cPr then if pe = q then if ye = y then 1 else 0 else 0 else 0) =
      (if cPr then if pe = q then 1 else 0 else 0) := by
    intro q
    rw [sum_if_const, sum_if_const, sum_range_ind H ye hy]
  calc (∑ q ∈ Finset.range P, ∑ y ∈ Finset.range H, ∑ x ∈ Finset.range W,
        if cPr then if pe = q then if ye = y then if xe = x then 1 else 0
          else 0 else 0 else 0)
      = ∑ q ∈ Finset.range P, ∑ y ∈ Finset.range H,
          (if cPr then if pe = q then if ye = y then 1 else 0 else 0 else 0) :=
        Finset.sum_congr rfl fun q _ => Finset.sum_congr rfl fun y _ => h1 q y
    _ = ∑ q ∈ Finset.range P, (if cPr then if pe = q then 1 else 0 else 0) :=
        Finset.sum_congr rfl fun q _ => h2 q
    _ = if cPr then 1 else 0 := by
        rw [sum_if_const, sum_range_ind P pe hp]

/-- For an in-bounds batch, per-cell counts of a bin sum to the number
of events assigned to that bin. -/
theorem sum_cellCountAt (B : Nat) (span t0 : Int) (P H W b : Nat) :
    ∀ evs : EventBatch,
      (∀ e ∈ evs, e.p < P ∧ e.y < H ∧ e.x < W) →
      (∑ q ∈ Finset.range P, ∑ y ∈ Finset.range H, ∑ x ∈ Finset.range W,
        cellCountAt B span t0 evs b q y x) = assignedAt B span t0 evs b := by
  intro evs
  induction evs with
  | nil =>
    intro _
    simp [cellCountAt, assignedAt]
  | cons e es ih =>
    intro hb
    have hbe := hb e (List.mem_cons_self e es)
    have hbes : ∀ e2 ∈ es, e2.p < P ∧ e2.y < H ∧ e2.x < W :=
      fun e2 h2 => hb e2 (List.mem_cons_of_mem e h2)
    have hcons : ∀ q y x : Nat, cellCountAt B span t0 (e :: es) b q y x =
        cellCountAt B span t0 es b q y x +
        (if binIndex B span t0 e.t = b ∧ e.p = q ∧ e.y = y ∧ e.x = x
          then 1 else 0) := by
      intro q y x
      by_cases hm : binIndex B span t0 e.t = b ∧ e.p = q ∧ e.y = y ∧ e.x = x
      · obtain ⟨h1, h2, h3, h4⟩ := hm
        simp [cellCountAt, List.filter_cons, h1, h2, h3, h4]
      · rw [if_neg hm]
        simp only [cellCountAt, List.filter_cons]
        rw [if_neg]
        · simp
        · intro hcon
          simp only [Bool.and_eq_true, decide_eq_true_eq] at hcon
          exact hm ⟨hcon.1.1.1, hcon.1.1.2, hcon.1.2, hcon.2⟩
    calc (∑ q ∈ Finset.range P, ∑ y ∈ Finset.range H, ∑ x ∈ Finset.range W,
          cellCountAt B span t0 (e :: es) b q y x)
        = (∑ q ∈ Finset.range P, ∑ y ∈ Finset.range H, ∑ x ∈ Finset.range W,
            (cellCountAt B span t0 es b q y x +
             (if binIndex B span t0 e.t = b ∧ e.p = q ∧ e.y = y ∧ e.x = x
               then 1 else 0))) :=
          Finset.sum_congr rfl fun q _ => Finset.sum_congr rfl fun y _ =>
            Finset.sum_congr rfl fun x _ => hcons q y x
      _ = (∑ q ∈ Finset.range P, ∑ y ∈ Finset.range H, ∑ x ∈ Finset.range W,
            cellCountAt B span t0 es b q y x) +
          (∑ q ∈ Finset.range P, ∑ y ∈ Finset.range H, ∑ x ∈ Finset.range W,
            (if binIndex B span t0 e.t = b ∧ e.p = q ∧ e.y = y ∧ e.x = x
              then 1 else 0)) := by
          simp [Finset.sum_add_distrib]
      _ = assignedAt B span t0 es b +
          (if binIndex B span t0 e.t = b then 1 else 0) := by
          rw [ih hbes, sum_indicator_cell P H W e.p e.y e.x
            (binIndex B span t0 e.t = b) hbe.1 hbe.2.1 hbe.2.2]
      _ = assignedAt B span t0 (e :: es) b := by
          simp only [assignedAt, List.filter_cons]
          by_cases hm : binIndex B span t0 e.t = b
          · simp [hm]
          · simp [hm]

/-- A successful binner call implies every event is inside the declared
shape. -/
theorem histoOk_bounds (sh : OutShape) (evs : EventBatch)
    (h : histoOk sh evs = true) :
    ∀ e ∈ evs, e.p < sh.polarities ∧ e.y < sh.height ∧ e.x < sh.width := by
  intro e he
  simp only [histoOk, Bool.and_eq_true, List.all_eq_true] at h
  have h2 := h.2 e he
  simp only [Bool.and_eq_true, decide_eq_true_eq] at h2
  exact ⟨h2.1.1, h2.1.2, h2.2⟩

/-- A numpy structured array is fixed-size, so the in-place effect of a
pipeline call never changes the length of the caller's array. -/
theorem composeRunE_length (l : List Transformation) : ∀ (al : Bool)
    (caller cur : EventBatch) (pr : EventBatch × EventBatch),
    composeRunE l al caller cur = .ok pr → (al = true → cur = caller) →
    pr.1.length = caller.length := by
  induction l with
  | nil =>
    intro al caller cur pr h _
    simp only [composeRunE] at h
    cases h
    rfl
  | cons t ts ih =>
    intro al caller cur pr h hinv
    simp only [composeRunE] at h
    split at h
    · simp at h
    · have hside : (al && t.returnsArg) = true →
          (if t.returnsArg then t.mutate cur else t.ret cur) =
          (if al then t.mutate cur else caller) := by
        intro hb
        simp only [Bool.and_eq_true] at hb
        simp [hb.1, hb.2]
      have hrec := ih _ _ _ pr h hside
      rw [hrec]
      cases hal : al
      · simp
      · subst hal
        simp [t.mutate_length, hinv rfl]

/-- The in-place transformation step preserves batch length. -/
theorem applyTransformInPlace_length (tr : Option Compose)
    (evs evs2 : EventBatch)
    (h : applyTransformInPlace tr evs = .ok evs2) :
    evs2.length = evs.length := by
  cases tr with
  | none =>
    simp only [applyTransformInPlace] at h
    cases h
    rfl
  | some c =>
    simp only [applyTransformInPlace] at h
    by_cases hlen : evs.length > 0
    · rw [if_pos hlen] at h
      cases hc : composeRunE c.transforms true evs evs with
      | error e => rw [hc] at h; simp at h
      | ok pr =>
        rw [hc] at h
        cases h
        exact composeRunE_length _ _ _ _ _ hc (fun _ => rfl)
    · rw [if_neg hlen] at h
      cases h
      rfl

/-- The successful non-empty branch of `run_spk`, in one equation. -/
theorem run_spk_emits (cfg : CameraConfig) (st : LoopState) (t_now : Int)
    (poll : Option (List RawEvent)) (evs2 : EventBatch)
    (hp : ¬ st.t_pause > st.t_last_iteration)
    (ht : applyTransformInPlace cfg.transformations (normalizeEvents poll) = .ok evs2)
    (hlen : evs2.length > 0)
    (hok : histoOk cfg.shape evs2 = true) :
    run_spk cfg st t_now poll =
      ⟨.emitted ⟨cfg.shape, .uint8,
          histoApply cfg.shape.num_output_time_bins evs2
            (lastT evs2 - firstT evs2) true st.volume⟩ (some evs2),
        ⟨st.t_pause, t_now,
          histoApply cfg.shape.num_output_time_bins evs2
            (lastT evs2 - firstT evs2) true st.volume⟩, true⟩ := by
  simp only [run_spk, if_neg hp, ht, hok, if_pos hlen, if_true]

/-- Claim C6: on any tick where `pause_time > last_iteration_time` holds
at the start of `run_spk`, the tick raises the "pause handling not
implemented" fault before polling the camera; no frame is emitted and
the loop state (in particular `last_iteration_time`) is unchanged. -/
theorem C6_pause_unimplemented (cfg : CameraConfig) (st : LoopState)
    (t_now : Int) (poll : Option (List RawEvent))
    (hp : st.t_pause > st.t_last_iteration) :
    run_spk cfg st t_now poll = ⟨.raised .notImplementedPause, st, false⟩ := by
  simp only [run_spk, if_pos hp]

theorem C6_pause_unimplemented_witness :
    run_spk ⟨⟨1, 2, 2, 2⟩, "", none⟩ ⟨1, 0, zeroVolume⟩ 5 none =
      ⟨.raised .notImplementedPause, ⟨1, 0, zeroVolume⟩, false⟩ :=
  C6_pause_unimplemented ⟨⟨1, 2, 2, 2⟩, "", none⟩ ⟨1, 0, zeroVolume⟩ 5 none
    (by decide)

/-- Claim C2 (code bug): the guard at line 70 rejects only `n < 0` and
`n > 1`, so construction with `num_output_time_bins = 0` succeeds even
though the guard's own error message says it "must be 1"; `n = 2` is
rejected and `n = 1` is accepted as claimed. -/
theorem C2_zero_time_bins_accepted :
    (init (4, 4) "" none none 0 none zeroDraws).isOk = true ∧
    init (4, 4) "" none none 2 none zeroDraws =
      .error (.valueError "Not Implemented: num_output_time_bins must be 1.") ∧
    (init (4, 4) "" none none 1 none zeroDraws).isOk = true :=
  ⟨rfl, rfl, rfl⟩

/-- Claim C3: with no explicit `out_shape`, the declared output shape is
`(num_output_time_bins, 2, height, width)` when no transformations are
configured, and otherwise takes polarity count, height and width from
the left-fold of each transform's `infer_output_shape` over
`EventVolume(height, width, polarities=2)` in pipeline order; an
explicit `out_shape` bypasses inference entirely. The last conjunct ties
the computation to the constructed process object. -/
theorem C3_declared_output_shape (h w n : Nat) (c : Compose)
    (tr : Option Compose) (s : OutShape) :
    declaredShape h w none n none = ⟨n, 2, h, w⟩ ∧
    declaredShape h w (some c) n none =
      ⟨n,
        (c.transforms.foldl
          (fun (v : EventVolume) (t : Transformation) => t.infer_output_shape v)
          ⟨h, w, 2⟩).polarities,
        (c.transforms.foldl
          (fun (v : EventVolume) (t : Transformation) => t.infer_output_shape v)
          ⟨h, w, 2⟩).height,
        (c.transforms.foldl
          (fun (v : EventVolume) (t : Transformation) => t.infer_output_shape v)
          ⟨h, w, 2⟩).width⟩ ∧
    declaredShape h w tr n (some s) = s ∧
    Except.map Camera.shape (init (h, w) "" none none 1 none zeroDraws) =
      .ok (declaredShape h w none 1 none) := by
  refine ⟨rfl, rfl, ?_, rfl⟩
  cases tr <;> rfl

/-- Claim C5: biases together with a non-empty (file) device string are
rejected at construction; biases with the empty (live-camera) device
pass the check, and no biases with any device passes the check. -/
theorem C5_biases_file_exclusive (s : Nat × Nat) (dev : String) (b : Biases)
    (dr : Draws) (hd : dev ≠ "") :
    init s dev (some b) none 1 none dr =
      .error (.valueError "Cant set biases if reading from file.") ∧
    (init s "" (some b) none 1 none dr).isOk = true ∧
    ∀ dev2, (init s dev2 none none 1 none dr).isOk = true := by
  refine ⟨?_, rfl, fun dev2 => rfl⟩
  simp only [init]
  rw [if_neg (by omega), if_pos ⟨rfl, hd⟩]

theorem C5_biases_file_exclusive_witness :
    init (2, 2) "file.raw" (some []) none 1 none zeroDraws =
      .error (.valueError "Cant set biases if reading from file.") ∧
    (init (2, 2) "" (some []) none 1 none zeroDraws).isOk = true ∧
    ∀ dev2, (init (2, 2) dev2 none none 1 none zeroDraws).isOk = true :=
  C5_biases_file_exclusive (2, 2) "file.raw" [] zeroDraws (by decide)

/-- Claim C9 (amended): every tick that completes without raising emits
exactly one frame, whose shape is the configured output shape; its dtype
is uint8 on ticks where the binner ran, while on empty-batch ticks the
emitted all-zero frame has numpy's default float64 dtype. -/
theorem C9_emit_shape_dtype (cfg : CameraConfig) (st : LoopState)
    (t_now : Int) (poll : Option (List RawEvent)) (fr : Frame)
    (bnd : Option EventBatch) (st2 : LoopState) (pl : Bool)
    (h : run_spk cfg st t_now poll = ⟨.emitted fr bnd, st2, pl⟩) :
    fr.shape = cfg.shape ∧
    (∀ b2, bnd = some b2 → fr.dtype = .uint8) ∧
    (bnd = none → fr.dtype = .float64 ∧ fr.data = zeroVolume) := by
  simp only [run_spk] at h
  split at h
  · simp at h
  · split at h
    · simp at h
    · split at h
      · split at h
        · injection h with h1 h2 h3
          injection h1 with hf hb
          subst hf
          subst hb
          exact ⟨rfl, fun b2 _ => rfl, fun hn => by simp at hn⟩
        · simp at h
      · injection h with h1 h2 h3
        injection h1 with hf hb
        subst hf
        subst hb
        exact ⟨rfl, fun b2 hb2 => by simp at hb2, fun _ => ⟨rfl, rfl⟩⟩

theorem C9_emit_shape_dtype_witness :
    (Frame.mk ⟨1, 2, 2, 2⟩ .float64 zeroVolume).shape = (⟨1, 2, 2, 2⟩ : OutShape) ∧
    (∀ b2, (none : Option EventBatch) = some b2 →
      (Frame.mk ⟨1, 2, 2, 2⟩ .float64 zeroVolume).dtype = .uint8) ∧
    ((none : Option EventBatch) = none →
      (Frame.mk ⟨1, 2, 2, 2⟩ .float64 zeroVolume).dtype = .float64 ∧
      (Frame.mk ⟨1, 2, 2, 2⟩ .float64 zeroVolume).data = zeroVolume) :=
  C9_emit_shape_dtype ⟨⟨1, 2, 2, 2⟩, "", none⟩ ⟨0, 0, zeroVolume⟩ 0 none
    (Frame.mk ⟨1, 2, 2, 2⟩ .float64 zeroVolume) none ⟨0, 0, zeroVolume⟩ true rfl

/-- Claim C9, counterexample to the original dtype clause: on a tick
with an empty batch, the emitted zero frame is `np.zeros(shape)` with
numpy's default dtype float64, which is not an unsigned 8-bit-or-wider
integer type. -/
theorem C9_dtype_counterexample :
    run_spk ⟨⟨1, 2, 2, 2⟩, "", none⟩ ⟨0, 0, zeroVolume⟩ 0 none =
      ⟨.emitted ⟨⟨1, 2, 2, 2⟩, .float64, zeroVolume⟩ none,
        ⟨0, 0, zeroVolume⟩, true⟩ ∧
    NpDtype.isUnsignedIntWidth8OrWider .float64 = false :=
  ⟨rfl, rfl⟩

/-- Claim C1: a tick that reaches polling and finds no batch, or an
empty batch (before, equivalently after, the in-place transformation),
emits an all-zero frame of the configured output shape, raises nothing,
and never invokes the histogram binner. -/
theorem C1_empty_batch_zero_frame (cfg : CameraConfig) (st : LoopState)
    (t_now : Int) (poll : Option (List RawEvent))
    (hp : ¬ st.t_pause > st.t_last_iteration)
    (hemp : normalizeEvents poll = [] ∨
      ∃ evs2, applyTransformInPlace cfg.transformations (normalizeEvents poll) =
        .ok evs2 ∧ evs2 = []) :
    run_spk cfg st t_now poll =
      ⟨.emitted ⟨cfg.shape, .float64, zeroVolume⟩ none,
        ⟨st.t_pause, t_now, st.volume⟩, true⟩ := by
  have hnil : normalizeEvents poll = [] := by
    rcases hemp with h0 | ⟨evs2, ht, he⟩
    · exact h0
    · subst he
      have hl := applyTransformInPlace_length _ _ _ ht
      simp only [List.length_nil] at hl
      exact List.length_eq_zero.mp hl.symm
  have ht0 : applyTransformInPlace cfg.transformations [] = .ok [] := by
    cases cfg.transformations <;> rfl
  simp only [run_spk, if_neg hp, hnil, ht0, List.length_nil, gt_iff_lt,
    lt_self_iff_false, if_false]

theorem C1_empty_batch_zero_frame_witness :
    run_spk ⟨⟨1, 2, 4, 4⟩, "", none⟩ ⟨0, 0, zeroVolume⟩ 3 none =
      ⟨.emitted ⟨⟨1, 2, 4, 4⟩, .float64, zeroVolume⟩ none,
        ⟨0, 3, zeroVolume⟩, true⟩ :=
  C1_empty_batch_zero_frame ⟨⟨1, 2, 4, 4⟩, "", none⟩ ⟨0, 0, zeroVolume⟩ 3 none
    (by decide) (Or.inl rfl)

/-- Claim C7: on a tick with a non-empty normalized batch, the loop runs
it through the pipeline (when configured) for its in-place effect, then
bins the resulting batch with `reset=True` and time span equal to the
difference of its last and first timestamps, and emits the resulting
volume. -/
theorem C7_nonempty_tick_binning (cfg : CameraConfig) (st : LoopState)
    (t_now : Int) (rb : List RawEvent) (evs2 : EventBatch)
    (hp : ¬ st.t_pause > st.t_last_iteration)
    (hne : normalizeEvents (some rb) ≠ [])
    (ht : applyTransformInPlace cfg.transformations (normalizeEvents (some rb)) = .ok evs2)
    (hok : histoOk cfg.shape evs2 = true) :
    run_spk cfg st t_now (some rb) =
      ⟨.emitted ⟨cfg.shape, .uint8,
          histoApply cfg.shape.num_output_time_bins evs2
            (lastT evs2 - firstT evs2) true st.volume⟩ (some evs2),
        ⟨st.t_pause, t_now,
          histoApply cfg.shape.num_output_time_bins evs2
            (lastT evs2 - firstT evs2) true st.volume⟩, true⟩ := by
  have hlen : evs2.length > 0 := by
    rw [applyTransformInPlace_length _ _ _ ht]
    exact List.length_pos.mpr hne
  exact run_spk_emits cfg st t_now (some rb) evs2 hp ht hlen hok

theorem C7_nonempty_tick_binning_witness :
    run_spk ⟨⟨1, 2, 2, 2⟩, "", none⟩ ⟨0, 0, zeroVolume⟩ 9 (some [⟨5, 1, 0, 0⟩]) =
      ⟨.emitted ⟨⟨1, 2, 2, 2⟩, .uint8,
          histoApply 1 [⟨0, 0, 1, 5⟩]
            (lastT [⟨0, 0, 1, 5⟩] - firstT [⟨0, 0, 1, 5⟩]) true zeroVolume⟩
          (some [⟨0, 0, 1, 5⟩]),
        ⟨0, 9,
          histoApply 1 [⟨0, 0, 1, 5⟩]
            (lastT [⟨0, 0, 1, 5⟩] - firstT [⟨0, 0, 1, 5⟩]) true zeroVolume⟩,
        true⟩ :=
  C7_nonempty_tick_binning ⟨⟨1, 2, 2, 2⟩, "", none⟩ ⟨0, 0, zeroVolume⟩ 9
    [⟨5, 1, 0, 0⟩] [⟨0, 0, 1, 5⟩] (by decide) (by decide) rfl (by decide)

/-- Claim C10: both callers of the pipeline discard its returned value
and keep only the in-place effect, so a transformation whose call
returns a transformed batch without mutating its argument has no effect:
the tick behaves exactly as with no pipeline at all, and the dry-run
binner consumes the untransformed synthetic batch. -/
theorem C10_pure_transform_discarded (t : Transformation)
    (cfg : CameraConfig) (st : LoopState) (t_now : Int)
    (poll : Option (List RawEvent)) (sh : OutShape) (td : EventBatch)
    (hm : t.mutate = fun b => b)
    (hr : ∀ b, t.raises b = false)
    (hcfg : cfg.transformations = some ⟨[t]⟩)
    (htd : td ≠ [])
    (hok : histoOk sh td = true) :
    run_spk cfg st t_now poll =
      run_spk ⟨cfg.shape, cfg.device, none⟩ st t_now poll ∧
    dryRun ⟨[t]⟩ sh td = .ok (some td) := by
  have ha : ∀ evs, applyTransformInPlace (some ⟨[t]⟩) evs = .ok evs := by
    intro evs
    by_cases hl : evs.length > 0
    · simp [applyTransformInPlace, hl, composeRunE, hr evs, hm]
    · simp [applyTransformInPlace, hl]
  constructor
  · simp only [run_spk, hcfg, ha]
    rfl
  · simp only [dryRun, composeRunE, hr td, hm, if_false, Bool.false_eq_true]
    simp [List.length_pos.mpr htd, hok]

theorem C10_pure_transform_discarded_witness :
    run_spk ⟨⟨1, 2, 2, 2⟩, "", some ⟨[idTransformation]⟩⟩ ⟨0, 0, zeroVolume⟩ 4
        (some [⟨5, 1, 0, 0⟩]) =
      run_spk ⟨⟨1, 2, 2, 2⟩, "", none⟩ ⟨0, 0, zeroVolume⟩ 4
        (some [⟨5, 1, 0, 0⟩]) ∧
    dryRun ⟨[idTransformation]⟩ ⟨1, 2, 2, 2⟩ [⟨0, 0, 0, 0⟩] =
      .ok (some [⟨0, 0, 0, 0⟩]) :=
  C10_pure_transform_discarded idTransformation
    ⟨⟨1, 2, 2, 2⟩, "", some ⟨[idTransformation]⟩⟩ ⟨0, 0, zeroVolume⟩ 4
    (some [⟨5, 1, 0, 0⟩]) ⟨1, 2, 2, 2⟩ [⟨0, 0, 0, 0⟩] rfl (fun _ => rfl) rfl
    (by decide) (by decide)

/-- Claim C8 (amended): for a non-empty, time-sorted, in-bounds batch on
a tick with no transformation pipeline, every entry of the emitted frame
is a saturating count of at most 255 — unconditionally; and, provided no
single cell receives more than 255 events, the sum over all
pixel/polarity cells of a time bin equals the number of events assigned
to that bin. -/
theorem C8_saturation_and_sum (cfg : CameraConfig) (st : LoopState)
    (t_now : Int) (rb : List RawEvent) (evs : EventBatch) (V : Volume)
    (hT : cfg.transformations = none)
    (hp : ¬ st.t_pause > st.t_last_iteration)
    (hevs : evs = normalizeEvents (some rb))
    (hne : evs ≠ [])
    (hsorted : List.Sorted (· ≤ ·) (evs.map Event.t))
    (hok : histoOk cfg.shape evs = true)
    (hV : V = histoApply cfg.shape.num_output_time_bins evs
      (lastT evs - firstT evs) true st.volume) :
    run_spk cfg st t_now (some rb) =
      ⟨.emitted ⟨cfg.shape, .uint8, V⟩ (some evs),
        ⟨st.t_pause, t_now, V⟩, true⟩ ∧
    (∀ b q y x, V b q y x ≤ 255) ∧
    ((∀ b q y x, cellCountAt cfg.shape.num_output_time_bins
        (lastT evs - firstT evs) (firstT evs) evs b q y x ≤ 255) →
      ∀ b, binSum cfg.shape V b =
        assignedAt cfg.shape.num_output_time_bins
          (lastT evs - firstT evs) (firstT evs) evs b) := by
  have hcell : ∀ b q y x, V b q y x =
      min 255 (cellCountAt cfg.shape.num_output_time_bins
        (lastT evs - firstT evs) (firstT evs) evs b q y x) := by
    intro b q y x
    rw [hV]
    simpa [histoApply] using histoFold_cell cfg.shape.num_output_time_bins
      (lastT evs - firstT evs) (firstT evs) b q y x evs zeroVolume 0 rfl
  refine ⟨?_, ?_, ?_⟩
  · subst hevs
    subst hV
    exact run_spk_emits cfg st t_now (some rb) _ hp (by rw [hT]; rfl)
      (List.length_pos.mpr hne) hok
  · intro b q y x
    rw [hcell b q y x]
    exact min_le_left _ _
  · intro hsat b
    have hbnd := histoOk_bounds cfg.shape evs hok
    have h1 : binSum cfg.shape V b =
        ∑ q ∈ Finset.range cfg.shape.polarities,
        ∑ y ∈ Finset.range cfg.shape.height,
        ∑ x ∈ Finset.range cfg.shape.width,
          cellCountAt cfg.shape.num_output_time_bins
            (lastT evs - firstT evs) (firstT evs) evs b q y x :=
      Finset.sum_congr rfl fun q _ => Finset.sum_congr rfl fun y _ =>
        Finset.sum_congr rfl fun x _ => by
          rw [hcell b q y x, min_eq_right (hsat b q y x)]
    rw [h1]
    exact sum_cellCountAt cfg.shape.num_output_time_bins
      (lastT evs - firstT evs) (firstT evs) cfg.shape.polarities
      cfg.shape.height cfg.shape.width b evs hbnd

theorem C8_saturation_and_sum_witness :
    run_spk ⟨⟨1, 2, 1, 1⟩, "", none⟩ ⟨0, 0, zeroVolume⟩ 3 (some [⟨5, 0, 0, 0⟩]) =
      ⟨.emitted ⟨⟨1, 2, 1, 1⟩, .uint8,
          histoApply 1 [⟨0, 0, 0, 5⟩]
            (lastT [⟨0, 0, 0, 5⟩] - firstT [⟨0, 0, 0, 5⟩]) true zeroVolume⟩
          (some [⟨0, 0, 0, 5⟩]),
        ⟨0, 3, histoApply 1 [⟨0, 0, 0, 5⟩]
            (lastT [⟨0, 0, 0, 5⟩] - firstT [⟨0, 0, 0, 5⟩]) true zeroVolume⟩,
        true⟩ ∧
    (∀ b q y x, histoApply 1 [⟨0, 0, 0, 5⟩]
        (lastT [⟨0, 0, 0, 5⟩] - firstT [⟨0, 0, 0, 5⟩]) true zeroVolume
        b q y x ≤ 255) ∧
    ((∀ b q y x, cellCountAt 1 (lastT [⟨0, 0, 0, 5⟩] - firstT [⟨0, 0, 0, 5⟩])
        (firstT [⟨0, 0, 0, 5⟩]) [⟨0, 0, 0, 5⟩] b q y x ≤ 255) →
      ∀ b, binSum ⟨1, 2, 1, 1⟩
          (histoApply 1 [⟨0, 0, 0, 5⟩]
            (lastT [⟨0, 0, 0, 5⟩] - firstT [⟨0, 0, 0, 5⟩]) true zeroVolume) b =
        assignedAt 1 (lastT [⟨0, 0, 0, 5⟩] - firstT [⟨0, 0, 0, 5⟩])
          (firstT [⟨0, 0, 0, 5⟩]) [⟨0, 0, 0, 5⟩] b) :=
  C8_saturation_and_sum ⟨⟨1, 2, 1, 1⟩, "", none⟩ ⟨0, 0, zeroVolume⟩ 3
    [⟨5, 0, 0, 0⟩] [⟨0, 0, 0, 5⟩] _ rfl (by decide) rfl (by decide) (by decide)
    (by decide) rfl

set_option maxRecDepth 40000 in
/-- Claim C8, counterexample to the unamended sum clause: 256 identical
events saturate their cell at 255, so the bin sum is 255 while 256
events are assigned to the bin. -/
theorem C8_sum_counterexample :
    (run_spk ⟨⟨1, 2, 1, 1⟩, "", none⟩ ⟨0, 0, zeroVolume⟩ 0
        (some (List.replicate 256 ⟨7, 0, 0, 0⟩))).outcome =
      .emitted ⟨⟨1, 2, 1, 1⟩, .uint8,
          histoApply 1 (List.replicate 256 ⟨0, 0, 0, 7⟩) 0 true zeroVolume⟩
        (some (List.replicate 256 ⟨0, 0, 0, 7⟩)) ∧
    List.Sorted (· ≤ ·)
      ((List.replicate 256 (⟨0, 0, 0, 7⟩ : Event)).map Event.t) ∧
    binSum ⟨1, 2, 1, 1⟩
      (histoApply 1 (List.replicate 256 ⟨0, 0, 0, 7⟩) 0 true zeroVolume) 0 =
      255 ∧
    assignedAt 1 0 7 (List.replicate 256 ⟨0, 0, 0, 7⟩) 0 = 256 ∧
    binSum ⟨1, 2, 1, 1⟩
      (histoApply 1 (List.replicate 256 ⟨0, 0, 0, 7⟩) 0 true zeroVolume) 0 ≠
      assignedAt 1 0 7 (List.replicate 256 ⟨0, 0, 0, 7⟩) 0 :=
  ⟨rfl, by decide, by decide, by decide, by decide⟩

/-- The timestamps of the synthetic batch are the floors of the sorted
scaled draws. -/
theorem enum_floor_map (l : List ℚ) :
    l.enum.map (fun iq => (⌊iq.2⌋ : ℤ)) = l.map (fun qv => (⌊qv⌋ : ℤ)) := by
  rw [show (fun iq : Nat × ℚ => (⌊iq.2⌋ : ℤ)) =
      ((fun qv : ℚ => (⌊qv⌋ : ℤ)) ∘ Prod.snd) from rfl,
    ← List.map_map, List.enum_map_snd]

theorem synthesize_length (w h : Nat) (d : Draws) :
    (synthesize w h d).length = 1000 := by
  simp only [synthesize, List.length_map, List.enum_length,
    List.length_insertionSort, List.length_range]

theorem synthesize_sorted (w h : Nat) (d : Draws) :
    List.Sorted (· ≤ ·) ((synthesize w h d).map Event.t) := by
  have h1 : ((synthesize w h d).map Event.t) =
      (((List.range 1000).map (fun i => d.t i * 1000000)).insertionSort
        (· ≤ ·)).enum.map (fun iq => (⌊iq.2⌋ : ℤ)) := by
    simp only [synthesize, List.map_map]
    rfl
  rw [h1, enum_floor_map]
  exact List.Pairwise.map _ (fun a b hab => Int.floor_le_floor hab)
    (List.sorted_insertionSort (· ≤ ·) _)

theorem synthesize_bounds (w h : Nat) (d : Draws) (hd : d.valid)
    (hw : 0 < w) (hh : 0 < h) :
    ∀ e ∈ synthesize w h d, e.x < w ∧ e.y < h ∧ e.p < 2 := by
  intro e he
  simp only [synthesize, List.mem_map] at he
  obtain ⟨iq, hiq, rfl⟩ := he
  obtain ⟨hx, hy, hp2, _⟩ := hd iq.1
  refine ⟨?_, ?_, ?_⟩
  · show (⌊d.x iq.1 * (w : ℚ)⌋).toNat < w
    have h1 : ⌊d.x iq.1 * (w : ℚ)⌋ < (w : ℤ) := by
      rw [Int.floor_lt]
      push_cast
      calc d.x iq.1 * (w : ℚ) < 1 * (w : ℚ) :=
            mul_lt_mul_of_pos_right hx.2 (by exact_mod_cast hw)
        _ = (w : ℚ) := one_mul _
    omega
  · show (⌊d.y iq.1 * (h : ℚ)⌋).toNat < h
    have h1 : ⌊d.y iq.1 * (h : ℚ)⌋ < (h : ℤ) := by
      rw [Int.floor_lt]
      push_cast
      calc d.y iq.1 * (h : ℚ) < 1 * (h : ℚ) :=
            mul_lt_mul_of_pos_right hy.2 (by exact_mod_cast hh)
        _ = (h : ℚ) := one_mul _
    omega
  · show (⌊d.p iq.1 * (2 : ℚ)⌋).toNat < 2
    have h1 : ⌊d.p iq.1 * (2 : ℚ)⌋ < (2 : ℤ) := by
      rw [Int.floor_lt]
      push_cast
      calc d.p iq.1 * (2 : ℚ) < 1 * (2 : ℚ) :=
            mul_lt_mul_of_pos_right hp2.2 (by norm_num)
        _ = (2 : ℚ) := one_mul _
    omega

/-- Claim C4: with a configured pipeline, construction synthesizes a
batch of exactly 1000 events with sorted timestamps, in-bounds
coordinates and polarities in 0..1, runs the Compose pipeline over it,
runs the binner once on the non-empty transformed batch, and maps any
dry-run exception to the single configuration error; with no pipeline no
dry run happens (the result is independent of the random draws). -/
theorem C4_dry_run (hgt wd : Nat) (dev : String) (out : Option OutShape)
    (c : Compose) (d : Draws) (hw : 0 < wd) (hh : 0 < hgt) (hd : d.valid) :
    (synthesize wd hgt d).length = 1000 ∧
    List.Sorted (· ≤ ·) ((synthesize wd hgt d).map Event.t) ∧
    (∀ e ∈ synthesize wd hgt d, e.x < wd ∧ e.y < hgt ∧ e.p < 2) ∧
    (init (hgt, wd) dev none (some c) 1 out d =
      match dryRun c (declaredShape hgt wd (some c) 1 out)
          (synthesize wd hgt d) with
      | .ok _ => .ok ⟨declaredShape hgt wd (some c) 1 out, dev, none, some c, 1⟩
      | .error _ =>
        .error (.exception "Your transformation is not compatible with the provided data.")) ∧
    (∀ r, dryRun c (declaredShape hgt wd (some c) 1 out)
        (synthesize wd hgt d) = .ok r → r.isSome = true) ∧
    (∀ d2 : Draws, init (hgt, wd) dev none none 1 out d2 =
      init (hgt, wd) dev none none 1 out d) := by
  refine ⟨synthesize_length wd hgt d, synthesize_sorted wd hgt d,
    synthesize_bounds wd hgt d hd hw hh, rfl, ?_, fun d2 => rfl⟩
  intro r hr
  cases hc : composeRunE c.transforms true (synthesize wd hgt d)
      (synthesize wd hgt d) with
  | error e => simp [dryRun, hc] at hr
  | ok pr =>
    have hlen : pr.1.length = 1000 := by
      rw [composeRunE_length _ _ _ _ _ hc (fun _ => rfl)]
      exact synthesize_length wd hgt d
    simp only [dryRun, hc] at hr
    rw [if_pos (show pr.1.length > 0 by omega)] at hr
    split at hr
    · cases hr
      rfl
    · simp at hr

theorem C4_dry_run_witness :
    (synthesize 4 4 halfDraws).length = 1000 ∧
    List.Sorted (· ≤ ·) ((synthesize 4 4 halfDraws).map Event.t) ∧
    (∀ e ∈ synthesize 4 4 halfDraws, e.x < 4 ∧ e.y < 4 ∧ e.p < 2) ∧
    (init (4, 4) "" none (some ⟨[idTransformation]⟩) 1 none halfDraws =
      match dryRun ⟨[idTransformation]⟩
          (declaredShape 4 4 (some ⟨[idTransformation]⟩) 1 none)
          (synthesize 4 4 halfDraws) with
      | .ok _ => .ok ⟨declaredShape 4 4 (some ⟨[idTransformation]⟩) 1 none,
          "", none, some ⟨[idTransformation]⟩, 1⟩
      | .error _ =>
        .error (.exception "Your transformation is not compatible with the provided data.")) ∧
    (∀ r, dryRun ⟨[idTransformation]⟩
        (declaredShape 4 4 (some ⟨[idTransformation]⟩) 1 none)
        (synthesize 4 4 halfDraws) = .ok r → r.isSome = true) ∧
    (∀ d2 : Draws, init (4, 4) "" none none 1 none d2 =
      init (4, 4) "" none none 1 none halfDraws) :=
  C4_dry_run 4 4 "" none ⟨[idTransformation]⟩ halfDraws (by decide) (by decide)
    (by intro i; refine ⟨⟨?_, ?_⟩, ⟨?_, ?_⟩, ⟨?_, ?_⟩, ⟨?_, ?_⟩⟩ <;>
      simp [halfDraws] <;> norm_num)

end Inivation
